import Mathlib

/-!
Verification development for the temporal anomaly-scoring engine of the
"Enhancing Threat Detection in Cloud Environments Through Temporal Anomaly
Modeling" repository.

Shallow-embedding conventions:
* Python floats are modelled as `ℚ` (exact rational arithmetic).
* pandas missing values (`NaN` produced by a rolling window that is not yet
  full) are modelled as `Option ℚ` with `none` for `NaN`.
* Python exceptions are modelled with `Except`: a function that can raise
  returns `Except ε α`, and a `try/except` block is a `match` on that value.
* The numeric kernel of scikit-learn's `IsolationForest` (and, where only
  control flow is at stake, the fitted scaler statistics) is abstracted as a
  function-valued field; every claim proved about those layers concerns
  buffering, state transitions, schema checks and error surfacing, which the
  embedding models exactly as the source does.
-/

set_option maxHeartbeats 1000000

namespace CloudThreat

/-! ## Severity classifier

Embedding of `RealTimeProcessor._calculate_severity`
(`src/cloud_integration/real_time_processor.py`, lines 154-186).
The accumulator updates mirror the source's sequential `if/elif` blocks.
-/

inductive Severity where
  | LOW
  | MEDIUM
  | HIGH
  | CRITICAL
deriving DecidableEq, Repr

/-- Source embedding of `_calculate_severity(data_point)`: sequential point
accumulation over the raw metric values, then mapping to a tier. -/
def calculate_severity (cpu network logins : ℚ) : Severity :=
  let s0 : ℕ := 0
  let s1 : ℕ := s0 + (if cpu > 4/5 then 3 else if cpu > 3/5 then 2 else if cpu > 2/5 then 1 else 0)
  let s2 : ℕ := s1 + (if network > 4/5 then 3 else if network > 1/2 then 1 else 0)
  let s3 : ℕ := s2 + (if logins > 15 then 3 else if logins > 8 then 1 else 0)
  if 6 ≤ s3 then Severity.CRITICAL
  else if 4 ≤ s3 then Severity.HIGH
  else if 2 ≤ s3 then Severity.MEDIUM
  else Severity.LOW

/-- Spec-side CPU point schedule: `>0.8 → +3, else >0.6 → +2, else >0.4 → +1, else +0`. -/
def specCpuPoints (cpu : ℚ) : ℕ :=
  if cpu > 4/5 then 3 else if cpu > 3/5 then 2 else if cpu > 2/5 then 1 else 0

/-- Spec-side network point schedule: `>0.8 → +3, else >0.5 → +1, else +0`. -/
def specNetworkPoints (network : ℚ) : ℕ :=
  if network > 4/5 then 3 else if network > 1/2 then 1 else 0

/-- Spec-side login point schedule: `>15 → +3, else >8 → +1, else +0`. -/
def specLoginPoints (logins : ℚ) : ℕ :=
  if logins > 15 then 3 else if logins > 8 then 1 else 0

/-- Spec-side tier map with inclusive lower bounds:
`≥6 → CRITICAL, ≥4 → HIGH, ≥2 → MEDIUM, else LOW`. -/
def specTier (total : ℕ) : Severity :=
  if 6 ≤ total then Severity.CRITICAL
  else if 4 ≤ total then Severity.HIGH
  else if 2 ≤ total then Severity.MEDIUM
  else Severity.LOW

/-- C3: the severity classifier accumulates the documented per-metric points
and maps the total through inclusive lower bounds; the tiers are exactly the
intervals `[6,∞)`, `[4,6)`, `[2,4)`, `[0,2)`, so a total of exactly 6 is
CRITICAL. -/
theorem severity_points_and_tiers (cpu network logins : ℚ) :
    calculate_severity cpu network logins =
      specTier (specCpuPoints cpu + specNetworkPoints network + specLoginPoints logins) ∧
    (∀ t, t = specCpuPoints cpu + specNetworkPoints network + specLoginPoints logins →
      (calculate_severity cpu network logins = Severity.CRITICAL ↔ 6 ≤ t) ∧
      (calculate_severity cpu network logins = Severity.HIGH ↔ 4 ≤ t ∧ t < 6) ∧
      (calculate_severity cpu network logins = Severity.MEDIUM ↔ 2 ≤ t ∧ t < 4) ∧
      (calculate_severity cpu network logins = Severity.LOW ↔ t < 2)) ∧
    (specCpuPoints cpu + specNetworkPoints network + specLoginPoints logins = 6 →
      calculate_severity cpu network logins = Severity.CRITICAL) := by
  have hmain : calculate_severity cpu network logins =
      specTier (specCpuPoints cpu + specNetworkPoints network + specLoginPoints logins) := by
    simp only [calculate_severity, specTier, specCpuPoints, specNetworkPoints,
      specLoginPoints, Nat.zero_add, Nat.add_assoc]
  refine ⟨hmain, ?_, ?_⟩
  · intro t ht
    subst ht
    rw [hmain]
    set t := specCpuPoints cpu + specNetworkPoints network + specLoginPoints logins with htdef
    by_cases h6 : 6 ≤ t <;> by_cases h4 : 4 ≤ t <;> by_cases h2 : 2 ≤ t <;>
      simp [specTier, h6, h4, h2] <;> omega
  · intro h
    rw [hmain, h]
    rfl

/-- C3 witness: cpu = 0.85 (+3), network = 0.85 (+3), logins = 0 (+0) gives a
total of exactly 6, which classifies as CRITICAL. -/
theorem severity_points_and_tiers_witness :
    calculate_severity (17/20) (17/20) 0 = Severity.CRITICAL :=
  (severity_points_and_tiers (17/20) (17/20) 0).2.2 (by
    norm_num [specCpuPoints, specNetworkPoints, specLoginPoints])

/-! ## Feature builder: rolling statistics and backward fill

Embedding of the rolling-window core of
`TemporalAnomalyDetector.create_temporal_features`
(`src/anomaly_detection/temporal_models.py`, lines 19-37), at the granularity
of one numeric column.  `data[col].rolling(window=5).mean()` / `.std()` yield
`NaN` (here `none`) at the positions whose trailing window is not full, and
`data.bfill()` replaces each `NaN` by the next valid value below it.
-/

/-- Arithmetic mean of a list (the value of `pandas.Series.mean` on a window). -/
def listMean (xs : List ℚ) : ℚ := xs.sum / xs.length

/-- Sample variance with `ddof = 1`; `pandas.Series.std` is its square root,
so equalities between stored rolling-std entries are exactly equalities
between these values. -/
def sampleVar (xs : List ℚ) : ℚ :=
  ((xs.map (fun x => (x - listMean xs) ^ 2)).sum) / ((xs.length : ℚ) - 1)

/-- Hardcoded `window_size = 5` of `create_temporal_features`. -/
def window_size : ℕ := 5

/-- `xs.rolling(window=w).agg(f)`: position `i` holds `f` of the trailing
window `xs[i+1-w .. i]` once `i + 1 ≥ w`, and `NaN` (`none`) before that. -/
def rollingApply (f : List ℚ → ℚ) (w : ℕ) (xs : List ℚ) : List (Option ℚ) :=
  (List.range xs.length).map
    (fun i => if i + 1 < w then none else some (f ((xs.drop (i + 1 - w)).take w)))

/-- First non-`NaN` entry of a column tail (the value `bfill` propagates). -/
def firstSome : List (Option ℚ) → Option ℚ
  | [] => none
  | some v :: _ => some v
  | none :: rest => firstSome rest

/-- `Series.bfill`: each entry is replaced by the first valid entry at or
below its own position (`none` survives only when no valid entry follows). -/
def bfill (l : List (Option ℚ)) : List (Option ℚ) :=
  (List.range l.length).map (fun i => firstSome (l.drop i))

/-- The `col_rolling_mean` column as stored after `create_temporal_features`. -/
def rolling_mean_feature (xs : List ℚ) : List (Option ℚ) :=
  bfill (rollingApply listMean window_size xs)

/-- The `col_rolling_std` column after `create_temporal_features`, carried in
squared form (see `sampleVar`). -/
def rolling_std_feature (xs : List ℚ) : List (Option ℚ) :=
  bfill (rollingApply sampleVar window_size xs)

theorem rollingApply_getElem? (f : List ℚ → ℚ) (w : ℕ) (xs : List ℚ) (i : ℕ)
    (hi : i < xs.length) :
    (rollingApply f w xs)[i]? =
      some (if i + 1 < w then none else some (f ((xs.drop (i + 1 - w)).take w))) := by
  simp [rollingApply, List.getElem?_map, List.getElem?_range, hi]

theorem bfill_getElem? (l : List (Option ℚ)) (i : ℕ) (hi : i < l.length) :
    (bfill l)[i]? = some (firstSome (l.drop i)) := by
  simp [bfill, List.getElem?_map, List.getElem?_range, hi]

theorem firstSome_drop_of_none (l : List (Option ℚ)) (i : ℕ)
    (h : l[i]? = some none) : firstSome (l.drop i) = firstSome (l.drop (i + 1)) := by
  have hi : i < l.length := by
    by_contra hc
    simp [List.getElem?_eq_none (Nat.le_of_not_lt hc)] at h
  rw [List.drop_eq_getElem_cons hi]
  have : l[i] = none := by
    have := List.getElem?_eq_getElem hi
    rw [this] at h
    exact Option.some.inj h
  rw [this]
  rfl

theorem firstSome_drop_of_some (l : List (Option ℚ)) (i : ℕ) (v : ℚ)
    (h : l[i]? = some (some v)) : firstSome (l.drop i) = some v := by
  have hi : i < l.length := by
    by_contra hc
    simp [List.getElem?_eq_none (Nat.le_of_not_lt hc)] at h
  rw [List.drop_eq_getElem_cons hi]
  have : l[i] = some v := by
    have := List.getElem?_eq_getElem hi
    rw [this] at h
    exact Option.some.inj h
  rw [this]
  rfl

/-- After back-filling, every head position `j ≤ W-1` of a rolling column
holds the statistic of the first full window `xs.take 5`. -/
theorem rolling_backfill_head (f : List ℚ → ℚ) (xs : List ℚ)
    (hlen : window_size ≤ xs.length) (j : ℕ) (hj : j ≤ window_size - 1) :
    (bfill (rollingApply f window_size xs))[j]? = some (some (f (xs.take window_size))) := by
  have hw : window_size = 5 := rfl
  rw [hw] at hlen hj ⊢
  have hlr : (rollingApply f 5 xs).length = xs.length := by
    simp [rollingApply]
  have hget : ∀ i, i < xs.length →
      (rollingApply f 5 xs)[i]? =
        some (if i + 1 < 5 then none else some (f ((xs.drop (i + 1 - 5)).take 5))) :=
    fun i hi => rollingApply_getElem? f 5 xs i hi
  have h4 : (rollingApply f 5 xs)[4]? = some (some (f (xs.take 5))) := by
    rw [hget 4 (by omega)]
    norm_num
  have hnone : ∀ i, i < 4 → (rollingApply f 5 xs)[i]? = some none := by
    intro i hi
    rw [hget i (by omega)]
    simp [Nat.lt_succ_of_lt, show i + 1 < 5 by omega]
  have hfs4 : firstSome ((rollingApply f 5 xs).drop 4) = some (f (xs.take 5)) :=
    firstSome_drop_of_some _ 4 _ h4
  have hchain : ∀ j, j ≤ 4 →
      firstSome ((rollingApply f 5 xs).drop j) = some (f (xs.take 5)) := by
    intro j hj
    interval_cases j
    · rw [firstSome_drop_of_none _ 0 (hnone 0 (by omega)),
        firstSome_drop_of_none _ 1 (hnone 1 (by omega)),
        firstSome_drop_of_none _ 2 (hnone 2 (by omega)),
        firstSome_drop_of_none _ 3 (hnone 3 (by omega))]
      exact hfs4
    · rw [firstSome_drop_of_none _ 1 (hnone 1 (by omega)),
        firstSome_drop_of_none _ 2 (hnone 2 (by omega)),
        firstSome_drop_of_none _ 3 (hnone 3 (by omega))]
      exact hfs4
    · rw [firstSome_drop_of_none _ 2 (hnone 2 (by omega)),
        firstSome_drop_of_none _ 3 (hnone 3 (by omega))]
      exact hfs4
    · rw [firstSome_drop_of_none _ 3 (hnone 3 (by omega))]
      exact hfs4
    · exact hfs4
  rw [bfill_getElem? _ j (by omega)]
  rw [hchain j hj]

/-- After back-filling, no position of a rolling column is missing. -/
theorem rolling_backfill_total (f : List ℚ → ℚ) (xs : List ℚ)
    (hlen : window_size ≤ xs.length) (i : ℕ) (hi : i < xs.length) :
    ∃ v, (bfill (rollingApply f window_size xs))[i]? = some (some v) := by
  have hw : window_size = 5 := rfl
  rw [hw] at hlen ⊢
  by_cases hsmall : i ≤ 4
  · exact ⟨f (xs.take 5), by
      have := rolling_backfill_head f xs (by rw [hw]; omega) i (by rw [hw]; omega)
      rwa [hw] at this⟩
  · have hlr : (rollingApply f 5 xs).length = xs.length := by simp [rollingApply]
    have hfs : firstSome ((rollingApply f 5 xs).drop i) =
        some (f ((xs.drop (i + 1 - 5)).take 5)) := by
      apply firstSome_drop_of_some
      rw [rollingApply_getElem? f 5 xs i hi]
      rw [if_neg (by omega)]
    refine ⟨f ((xs.drop (i + 1 - 5)).take 5), ?_⟩
    rw [bfill_getElem? _ i (by omega), hfs]

/-- C2: with the default rolling window `W = 5`, the backfilled rolling-mean
and rolling-std columns satisfy the back-fill invariant — every position
`0 ≤ j ≤ W-2` holds exactly the value computed at position `W-1` (the
statistic of the first full window) — and no position of either rolling
feature is left missing.  (Rolling std is carried as its square: equality of
the stored standard deviations is equality of these values.) -/
theorem rolling_backfill_invariant (xs : List ℚ) (hlen : window_size ≤ xs.length) :
    (∀ j, j ≤ window_size - 1 →
      (rolling_mean_feature xs)[j]? = some (some (listMean (xs.take window_size))) ∧
      (rolling_std_feature xs)[j]? = some (some (sampleVar (xs.take window_size)))) ∧
    (∀ j, j < window_size - 1 →
      (rolling_mean_feature xs)[j]? = (rolling_mean_feature xs)[window_size - 1]? ∧
      (rolling_std_feature xs)[j]? = (rolling_std_feature xs)[window_size - 1]?) ∧
    (∀ i, i < xs.length →
      (∃ v, (rolling_mean_feature xs)[i]? = some (some v)) ∧
      (∃ v, (rolling_std_feature xs)[i]? = some (some v))) := by
  refine ⟨?_, ?_, ?_⟩
  · intro j hj
    exact ⟨rolling_backfill_head listMean xs hlen j hj,
      rolling_backfill_head sampleVar xs hlen j hj⟩
  · intro j hj
    constructor
    · exact (rolling_backfill_head listMean xs hlen j (by omega)).trans
        (rolling_backfill_head listMean xs hlen (window_size - 1) (by omega)).symm
    · exact (rolling_backfill_head sampleVar xs hlen j (by omega)).trans
        (rolling_backfill_head sampleVar xs hlen (window_size - 1) (by omega)).symm
  · intro i hi
    exact ⟨rolling_backfill_total listMean xs hlen i hi,
      rolling_backfill_total sampleVar xs hlen i hi⟩

/-- C2 witness: on the 6-element stream `[1,2,3,4,5,6]` position 0 of the
backfilled rolling-mean column equals position 4, namely the mean 3 of the
first window. -/
theorem rolling_backfill_invariant_witness :
    (5 : ℕ) ≤ ([1, 2, 3, 4, 5, 6] : List ℚ).length ∧
    (rolling_mean_feature [1, 2, 3, 4, 5, 6])[0]? = some (some 3) := by
  refine ⟨by norm_num, ?_⟩
  have h := ((rolling_backfill_invariant ([1, 2, 3, 4, 5, 6] : List ℚ)
      (by norm_num [window_size])).1 0 (by norm_num [window_size])).1
  rw [h]
  norm_num [listMean, window_size, List.take]

/-! ## Normalizer

Embedding of the per-column behaviour of scikit-learn's `StandardScaler` as
used by `TemporalAnomalyDetector.fit` / `.predict`
(`src/anomaly_detection/temporal_models.py`, lines 50-54 and 73-74):
`fit` stores per-feature `mean_` (column mean) and `scale_`
(the square root of the population variance, with zero scales replaced by 1 —
scikit-learn's `_handle_zeros_in_scale`), and `transform` applies
`(x - mean_) / scale_` elementwise.  Since the square root of a rational is
not rational, the scale is quantified: any `s > 0` with `s ^ 2 = scaleSq xs`
is the stored scale.
-/

/-- Population variance (`ddof = 0`), the `var_` attribute computed by
`StandardScaler.fit`. -/
def popVar (xs : List ℚ) : ℚ :=
  ((xs.map (fun x => (x - listMean xs) ^ 2)).sum) / xs.length

/-- Square of the stored `scale_`: the population variance, with zero
replaced by 1 exactly as `_handle_zeros_in_scale` replaces a zero scale. -/
def scaleSq (xs : List ℚ) : ℚ := if popVar xs = 0 then 1 else popVar xs

/-- `StandardScaler.transform` on one column: `(x - mean_) / scale_`. -/
def transformCol (μ s : ℚ) (xs : List ℚ) : List ℚ := xs.map (fun x => (x - μ) / s)

theorem sum_map_shift_div (xs : List ℚ) (μ s : ℚ) :
    (xs.map (fun x => (x - μ) / s)).sum = (xs.sum - xs.length * μ) / s := by
  induction xs with
  | nil => simp
  | cons a t ih =>
    simp only [List.map_cons, List.sum_cons, ih, List.length_cons]
    rw [div_add_div_same]
    push_cast
    ring_nf

theorem sum_map_div (g : ℚ → ℚ) (c : ℚ) (xs : List ℚ) :
    (xs.map (fun x => g x / c)).sum = (xs.map g).sum / c := by
  induction xs with
  | nil => simp
  | cons a t ih =>
    simp only [List.map_cons, List.sum_cons, ih]
    rw [div_add_div_same]

theorem sum_nonneg_all_zero (l : List ℚ) (hpos : ∀ x ∈ l, 0 ≤ x)
    (hsum : l.sum = 0) : ∀ x ∈ l, x = 0 := by
  induction l with
  | nil => intro x hx; cases hx
  | cons a t ih =>
    have hat : 0 ≤ a := hpos a (by simp)
    have htn : 0 ≤ t.sum := List.sum_nonneg (fun x hx => hpos x (by simp [hx]))
    have hsum' : a + t.sum = 0 := by simpa using hsum
    have ha : a = 0 := by linarith
    have ht : t.sum = 0 := by linarith
    intro x hx
    rcases List.mem_cons.mp hx with h | h
    · rw [h]; exact ha
    · exact ih (fun y hy => hpos y (by simp [hy])) ht x h

theorem popVar_zero_const (xs : List ℚ) (hne : xs ≠ []) (h : popVar xs = 0) :
    ∀ x ∈ xs, x = listMean xs := by
  have hn : (xs.length : ℚ) ≠ 0 := by
    have := List.length_pos.mpr hne
    exact_mod_cast Nat.pos_iff_ne_zero.mp this
  have hS : ((xs.map (fun x => (x - listMean xs) ^ 2)).sum) = 0 := by
    have := h
    unfold popVar at this
    field_simp at this
    exact this
  have hall := sum_nonneg_all_zero _ (by
      intro x hx
      rcases List.mem_map.mp hx with ⟨y, _, rfl⟩
      positivity) hS
  intro x hx
  have hsq : (x - listMean xs) ^ 2 = 0 :=
    hall _ (List.mem_map.mpr ⟨x, hx, rfl⟩)
  have := pow_eq_zero_iff (n := 2) (by norm_num) |>.mp hsq
  linarith [sub_eq_zero.mp this]

theorem sq_pos_eq_one (s : ℚ) (hpos : 0 < s) (hsq : s ^ 2 = 1) : s = 1 := by
  have hfact : (s - 1) * (s + 1) = 0 := by linear_combination hsq
  rcases mul_eq_zero.mp hfact with h | h
  · linarith [sub_eq_zero.mp h]
  · linarith

/-- C4: the Normalizer's transform with the stored mean and scale.  On a
constant fitting column (population variance zero, scale replaced by 1) every
transformed entry is exactly 0 — no division by zero is ever performed.  On a
non-constant column, transforming the fitting data itself yields mean exactly
0 and population variance exactly 1, hence standard deviation exactly 1. -/
theorem normalizer_transform (xs : List ℚ) (hne : xs ≠ []) (s : ℚ)
    (hpos : 0 < s) (hsq : s ^ 2 = scaleSq xs) :
    (popVar xs = 0 → transformCol (listMean xs) s xs = List.replicate xs.length 0) ∧
    (popVar xs ≠ 0 →
      listMean (transformCol (listMean xs) s xs) = 0 ∧
      popVar (transformCol (listMean xs) s xs) = 1 ∧
      (∀ t : ℚ, 0 ≤ t → t ^ 2 = popVar (transformCol (listMean xs) s xs) → t = 1)) := by
  have hn : (xs.length : ℚ) ≠ 0 := by
    have := List.length_pos.mpr hne
    exact_mod_cast Nat.pos_iff_ne_zero.mp this
  constructor
  · intro h0
    have hs1 : s = 1 := by
      apply sq_pos_eq_one s hpos
      rw [hsq, scaleSq, if_pos h0]
    have hconst := popVar_zero_const xs hne h0
    rw [List.eq_replicate_iff]
    refine ⟨by simp [transformCol], ?_⟩
    intro b hb
    rcases List.mem_map.mp hb with ⟨x, hx, rfl⟩
    rw [hconst x hx, hs1]
    simp
  · intro hvar
    have hs2 : s ^ 2 = popVar xs := by rw [hsq, scaleSq, if_neg hvar]
    have hsne : s ≠ 0 := ne_of_gt hpos
    have hzero_sum : (transformCol (listMean xs) s xs).sum = 0 := by
      rw [transformCol, sum_map_shift_div]
      have : xs.sum - (xs.length : ℚ) * listMean xs = 0 := by
        rw [listMean]
        field_simp
      rw [this, zero_div]
    have hmean : listMean (transformCol (listMean xs) s xs) = 0 := by
      rw [listMean, hzero_sum, zero_div]
    have hvarz : popVar (transformCol (listMean xs) s xs) = 1 := by
      rw [popVar, hmean]
      have hlen : (transformCol (listMean xs) s xs).length = xs.length := by
        simp [transformCol]
      rw [hlen]
      have hmaps : (transformCol (listMean xs) s xs).map (fun y => (y - 0) ^ 2) =
          xs.map (fun x => ((x - listMean xs) ^ 2) / s ^ 2) := by
        rw [transformCol, List.map_map]
        apply List.map_congr_left
        intro x _
        simp only [Function.comp]
        rw [sub_zero, div_pow]
      rw [hmaps, sum_map_div]
      rw [div_div, mul_comm, ← div_div, ← popVar, ← hs2]
      exact div_self (by rw [hs2]; exact hvar)
    refine ⟨hmean, hvarz, ?_⟩
    intro t ht0 htsq
    rw [hvarz] at htsq
    have htpos : 0 < t := by
      rcases lt_or_eq_of_le ht0 with h | h
      · exact h
      · exfalso
        rw [← h] at htsq
        norm_num at htsq
    exact sq_pos_eq_one t htpos htsq

/-- C4 witness: fitting column `[0, 2]` has mean 1 and population variance 1,
so the stored scale is 1; transforming the fitting data yields mean 0 and
variance 1. -/
theorem normalizer_transform_witness :
    listMean (transformCol (listMean [0, 2]) 1 [0, 2]) = 0 ∧
    popVar (transformCol (listMean [0, 2]) 1 [0, 2]) = 1 := by
  have hvar : popVar ([0, 2] : List ℚ) ≠ 0 := by
    norm_num [popVar, listMean]
  have h := normalizer_transform ([0, 2] : List ℚ) (by simp) 1 (by norm_num)
    (by norm_num [scaleSq, popVar, listMean])
  exact ⟨(h.2 hvar).1, (h.2 hvar).2.1⟩

/-! ## Detector fit lifecycle and schema validation

Embedding of the error-surfacing control flow of `TemporalAnomalyDetector`
(`src/anomaly_detection/temporal_models.py`).  `predict` raises
`ValueError("Model must be fitted before prediction")` when `is_fitted` is
false (lines 61-62); when fitted, it builds the temporal features, selects
the numeric feature columns except `anomaly` (lines 65-71) and calls
`self.scaler.transform(features)` (line 74) — scikit-learn's fitted
transformers validate the input against the feature names recorded at fit
time (`feature_names_in_`) and raise when the column sets differ, and raise
`NotFittedError` when `fit` was never called.  The per-column numerics are
the subject of the Normalizer section above; here the scaler carries its
fitted `(mean_, scale_)` pairs opaquely and the isolation forest is an
abstract function field, since the claims below concern only error
surfacing. -/

/-- Errors surfaced by the detector pipeline (Python exception classes). -/
inductive DetectorError where
  | NotFitted
  | SchemaMismatch
deriving DecidableEq, Repr

/-- One anomaly prediction: the `-1`/`+1` label and the decision-function
score, as appended by `predict` (lines 77-79). -/
structure PredictResult where
  anomaly : ℤ
  anomaly_score : ℚ
deriving DecidableEq, Repr

/-- The numeric slice of a pandas DataFrame: ordered column names and rows. -/
structure DataFrame where
  cols : List String
  rows : List (List ℚ)

/-- Fitted state of `StandardScaler`: `none` before `fit`; after `fit`, the
recorded feature names (`feature_names_in_`) and per-feature
`(mean_, scale_)` pairs. -/
structure StandardScaler where
  fitted : Option (List String × List (ℚ × ℚ))

/-- Row transform of a fitted scaler: `(x - mean_) / scale_` per feature. -/
def scaleRow (stats : List (ℚ × ℚ)) (row : List ℚ) : List ℚ :=
  (row.zip stats).map (fun p => (p.1 - p.2.1) / p.2.2)

/-- `StandardScaler.transform`: `NotFittedError` before `fit`; feature-name
validation against `feature_names_in_`; otherwise elementwise scaling. -/
def StandardScaler.transform (s : StandardScaler) (X : DataFrame) :
    Except DetectorError (List (List ℚ)) :=
  match s.fitted with
  | none => Except.error DetectorError.NotFitted
  | some (names, stats) =>
    if X.cols = names then Except.ok (X.rows.map (scaleRow stats))
    else Except.error DetectorError.SchemaMismatch

/-- Calendar columns appended by `create_temporal_features` (lines 23-25). -/
def calendarCols : List String := ["hour", "day_of_week", "is_weekend"]

/-- Rolling-feature columns appended by `create_temporal_features`
(lines 28-33): two per numeric column not among the calendar columns. -/
def rollingColNames (cols : List String) : List String :=
  (cols.filter (fun c => ¬ (c = "hour" ∨ c = "day_of_week" ∨ c = "is_weekend"))).flatMap
    (fun c => [c ++ "_rolling_mean", c ++ "_rolling_std"])

/-- Numeric feature columns selected by `fit`/`predict` (lines 45-47, 68-70):
the enhanced frame's columns with the `anomaly` column excluded. -/
def featureCols (cols : List String) : List String :=
  ((cols ++ calendarCols) ++ rollingColNames cols).filter (fun c => c ≠ "anomaly")

/-- Embedding of `TemporalAnomalyDetector`.  `forest` is the fitted
`IsolationForest` pipeline applied to the scaled feature rows, abstracted as
a function since no claim below depends on its numeric output. -/
structure TemporalAnomalyDetector where
  contamination : ℚ
  random_state : ℕ
  is_fitted : Bool
  scaler : StandardScaler
  forest : List (List ℚ) → List PredictResult

/-- `TemporalAnomalyDetector.__init__` (lines 9-17): contamination and seed
recorded, nothing fitted yet. -/
def TemporalAnomalyDetector.init (contamination : ℚ) (random_state : ℕ)
    (f0 : List (List ℚ) → List PredictResult) : TemporalAnomalyDetector :=
  { contamination := contamination, random_state := random_state,
    is_fitted := false, scaler := ⟨none⟩, forest := f0 }

/-- `TemporalAnomalyDetector.fit` (lines 39-57): records the feature schema
of the fitting frame in the scaler, marks the detector fitted.  The numeric
results of the scaler fit and the forest fit are supplied as data
(`stats`, `f`), their computation being abstracted. -/
def TemporalAnomalyDetector.fit (d : TemporalAnomalyDetector) (X : DataFrame)
    (stats : List (ℚ × ℚ)) (f : List (List ℚ) → List PredictResult) :
    TemporalAnomalyDetector :=
  { d with is_fitted := true, scaler := ⟨some (featureCols X.cols, stats)⟩, forest := f }

/-- `TemporalAnomalyDetector.predict` (lines 59-81): the explicit
not-fitted guard, then feature building and the scaler's validating
transform, then the forest. -/
def TemporalAnomalyDetector.predict (d : TemporalAnomalyDetector) (X : DataFrame) :
    Except DetectorError (List PredictResult) :=
  if d.is_fitted = false then Except.error DetectorError.NotFitted
  else
    match d.scaler.transform { cols := featureCols X.cols, rows := X.rows } with
    | Except.error e => Except.error e
    | Except.ok scaled => Except.ok (d.forest scaled)

/-- C5: on a detector on which `fit` has never been called, `predict` fails
immediately with the NotFitted error, and likewise the Normalizer's
`transform` before `fit`; in particular a freshly constructed detector is in
that state.  No default output is substituted: the result is an error value,
never an `ok`. -/
theorem predict_before_fit_errors (d : TemporalAnomalyDetector) (X Y : DataFrame)
    (s : StandardScaler) (c : ℚ) (r : ℕ) (f0 : List (List ℚ) → List PredictResult)
    (hd : d.is_fitted = false) (hs : s.fitted = none) :
    d.predict X = Except.error DetectorError.NotFitted ∧
    s.transform Y = Except.error DetectorError.NotFitted ∧
    (TemporalAnomalyDetector.init c r f0).is_fitted = false ∧
    (TemporalAnomalyDetector.init c r f0).predict X = Except.error DetectorError.NotFitted ∧
    (∀ out, d.predict X ≠ Except.ok out) := by
  have h1 : d.predict X = Except.error DetectorError.NotFitted := by
    rw [TemporalAnomalyDetector.predict, hd]
    rfl
  refine ⟨h1, ?_, rfl, rfl, ?_⟩
  · rw [StandardScaler.transform, hs]
  · intro out hout
    rw [h1] at hout
    cases hout

/-- C5 witness: a freshly constructed detector and scaler refuse to predict
or transform. -/
theorem predict_before_fit_errors_witness :
    (TemporalAnomalyDetector.init (1/10) 42 (fun _ => [])).predict ⟨[], []⟩ =
      Except.error DetectorError.NotFitted ∧
    StandardScaler.transform ⟨none⟩ ⟨[], []⟩ = Except.error DetectorError.NotFitted :=
  ⟨(predict_before_fit_errors (TemporalAnomalyDetector.init (1/10) 42 (fun _ => []))
      ⟨[], []⟩ ⟨[], []⟩ ⟨none⟩ (1/10) 42 (fun _ => []) rfl rfl).1,
    (predict_before_fit_errors (TemporalAnomalyDetector.init (1/10) 42 (fun _ => []))
      ⟨[], []⟩ ⟨[], []⟩ ⟨none⟩ (1/10) 42 (fun _ => []) rfl rfl).2.1⟩

/-- Column names a metric frame may use: anything except the derived
calendar names and the detector's own label column, which
`create_temporal_features` / `fit` treat specially. -/
def MetricCols (cols : List String) : Prop :=
  ∀ c ∈ cols, c ≠ "hour" ∧ c ≠ "day_of_week" ∧ c ≠ "is_weekend" ∧ c ≠ "anomaly"

instance (cols : List String) : Decidable (MetricCols cols) := by
  unfold MetricCols
  infer_instance

/-- Unfiltered rolling-column names: two per input column. -/
def rollingFull (cols : List String) : List String :=
  cols.flatMap (fun c => [c ++ "_rolling_mean", c ++ "_rolling_std"])

theorem rollingFull_length (cols : List String) :
    (rollingFull cols).length = 2 * cols.length := by
  induction cols with
  | nil => rfl
  | cons a t ih =>
    simp only [rollingFull, List.flatMap_cons] at *
    simp [ih]
    omega

theorem mem_rollingFull_ne_anomaly (cols : List String) :
    ∀ c ∈ rollingFull cols, c ≠ "anomaly" := by
  intro c hc
  rcases List.mem_flatMap.mp hc with ⟨b, _, hb⟩
  have hmean : ("_rolling_mean" : String).length = 13 := rfl
  have hstd : ("_rolling_std" : String).length = 12 := rfl
  have hanv : ("anomaly" : String).length = 7 := rfl
  simp only [List.mem_cons, List.not_mem_nil, or_false] at hb
  rcases hb with h | h
  · rw [h]
    intro he
    have h2 := congrArg String.length he
    rw [String.length_append] at h2
    omega
  · rw [h]
    intro he
    have h2 := congrArg String.length he
    rw [String.length_append] at h2
    omega

theorem featureCols_of_metric (cols : List String) (h : MetricCols cols) :
    featureCols cols = cols ++ calendarCols ++ rollingFull cols := by
  unfold featureCols
  have hroll : rollingColNames cols = rollingFull cols := by
    unfold rollingColNames rollingFull
    congr 1
    apply List.filter_eq_self.mpr
    intro c hc
    rcases h c hc with ⟨h1, h2, h3, _⟩
    simp [h1, h2, h3]
  rw [hroll, List.filter_append, List.filter_append]
  rw [List.filter_eq_self.mpr (by
    intro c hc
    simpa using (h c hc).2.2.2)]
  rw [List.filter_eq_self.mpr (by
    intro c hc
    simp only [calendarCols, List.mem_cons, List.not_mem_nil, or_false] at hc
    rcases hc with h | h | h <;> simp [h])]
  rw [List.filter_eq_self.mpr (by
    intro c hc
    simpa using mem_rollingFull_ne_anomaly cols c hc)]

theorem featureCols_injective_on_metric (a b : List String)
    (ha : MetricCols a) (hb : MetricCols b)
    (h : featureCols a = featureCols b) : a = b := by
  rw [featureCols_of_metric a ha, featureCols_of_metric b hb] at h
  rw [List.append_assoc, List.append_assoc] at h
  have hlen := congrArg List.length h
  simp only [List.length_append, rollingFull_length] at hlen
  have hab : a.length = b.length := by omega
  exact (List.append_inj h hab).1

/-- C6: predicting with a feature-column set different from the one recorded
at fit time fails with the SchemaMismatch error (over metric column names,
i.e. names not clashing with the derived calendar/label columns the feature
builder itself adds). -/
theorem predict_schema_mismatch (d0 : TemporalAnomalyDetector) (Xfit Xpred : DataFrame)
    (stats : List (ℚ × ℚ)) (f : List (List ℚ) → List PredictResult)
    (hfit : MetricCols Xfit.cols) (hpred : MetricCols Xpred.cols)
    (hne : Xpred.cols ≠ Xfit.cols) :
    (d0.fit Xfit stats f).predict Xpred = Except.error DetectorError.SchemaMismatch := by
  rw [TemporalAnomalyDetector.predict]
  have hfitted : (d0.fit Xfit stats f).is_fitted = true := rfl
  rw [hfitted]
  simp only [Bool.true_eq_false, if_false]
  have hsc : (d0.fit Xfit stats f).scaler = ⟨some (featureCols Xfit.cols, stats)⟩ := rfl
  rw [hsc, StandardScaler.transform]
  simp only
  rw [if_neg (by
    intro hcols
    exact hne (featureCols_injective_on_metric _ _ hpred hfit hcols))]

/-- C6 witness: fit on column set `[cpu_usage]`, predict on
`[cpu_usage, network_traffic]` — SchemaMismatch. -/
theorem predict_schema_mismatch_witness :
    ((TemporalAnomalyDetector.init (1/10) 42 (fun _ => [])).fit
        ⟨["cpu_usage"], []⟩ [] (fun _ => [])).predict
      ⟨["cpu_usage", "network_traffic"], []⟩ =
    Except.error DetectorError.SchemaMismatch :=
  predict_schema_mismatch (TemporalAnomalyDetector.init (1/10) 42 (fun _ => []))
    ⟨["cpu_usage"], []⟩ ⟨["cpu_usage", "network_traffic"], []⟩ [] (fun _ => [])
    (by decide) (by decide) (by decide)

/-! ## Real-time processor

Embedding of `RealTimeProcessor`
(`src/cloud_integration/real_time_processor.py`).  `process_data_point`
(lines 107-152) appends the observation to `data_buffer`, pops the oldest
entry when the buffer exceeds `max_buffer_size = 1000`, fits the detector on
the full buffer the first time the buffer holds at least 50 rows, and once
trained predicts over the 10 most recent rows (`df.tail(10)`), emitting an
alert only when the newest row is labelled `-1`.  The `try/except` around the
prediction is the `match` on the `Except` value; `results.iloc[-1]` on an
empty result raises, which lands in the same `except` branch, so the
`getLast? = none` case is that caught exception.  The detector object is
carried as an abstract fitted model (`FittedDetector`): `detector.fit(df)`
yields the model, and its `predict` returns one label/score row per input row
(the raw columns of the prediction output equal the input rows, so the alert
fields read from `latest_result` are the newest observation's own fields). -/

/-- One raw observation, the dict built by `simulate_real_time_data`
(lines 45-53); the timestamp is modelled as an integer tick. -/
structure Obs where
  timestamp : ℕ
  instance_name : String
  cpu_usage : ℚ
  network_traffic : ℚ
  login_attempts : ℚ
  memory_usage : ℚ
  disk_io : ℚ
deriving DecidableEq, Repr

/-- Abstract fitted `TemporalAnomalyDetector` as used by the online loop:
`predict` can raise (modelled as `Except.error`). -/
structure FittedDetector where
  predict : List Obs → Except String (List PredictResult)

/-- The alert record assembled at lines 136-144. -/
structure Alert where
  timestamp : ℕ
  instance_name : String
  anomaly_score : ℚ
  cpu_usage : ℚ
  network_traffic : ℚ
  login_attempts : ℚ
  severity : Severity
deriving DecidableEq, Repr

/-- Mutable state of `RealTimeProcessor` relevant to `process_data_point`. -/
structure ProcessorState where
  is_trained : Bool
  model : Option FittedDetector
  data_buffer : List Obs
  alerts : List Alert

/-- `self.max_buffer_size = 1000` (line 35). -/
def max_buffer_size : ℕ := 1000

/-- The training threshold `len(df) >= 50` (line 120). -/
def min_training_size : ℕ := 50

/-- The prediction window `df.tail(10)` (lines 127-130). -/
def prediction_window : ℕ := 10

/-- Lines 110-114: append, then pop the oldest entry if the buffer now
exceeds capacity. -/
def pushBuffer (buf : List Obs) (x : Obs) : List Obs :=
  let b := buf ++ [x]
  if max_buffer_size < b.length then b.drop 1 else b

/-- `df.tail(n)`: the last `n` rows. -/
def takeLast (n : ℕ) (l : List Obs) : List Obs := l.drop (l.length - n)

/-- The alert dict of lines 136-144, built from the newest observation's raw
fields and its prediction row. -/
def mkAlert (x : Obs) (r : PredictResult) : Alert :=
  { timestamp := x.timestamp, instance_name := x.instance_name,
    anomaly_score := r.anomaly_score, cpu_usage := x.cpu_usage,
    network_traffic := x.network_traffic, login_attempts := x.login_attempts,
    severity := calculate_severity x.cpu_usage x.network_traffic x.login_attempts }

/-- `RealTimeProcessor.process_data_point` (lines 107-152).  `fit` stands for
`self.detector.fit` on the current buffer. -/
def process_data_point (fit : List Obs → FittedDetector) (st : ProcessorState)
    (x : Obs) : ProcessorState × Option Alert :=
  let buf := pushBuffer st.data_buffer x
  if min_training_size ≤ buf.length ∧ st.is_trained = false then
    ({ st with data_buffer := buf, model := some (fit buf), is_trained := true }, none)
  else if st.is_trained = true ∧ prediction_window ≤ buf.length then
    match st.model with
    | none => ({ st with data_buffer := buf }, none)
    | some m =>
      match m.predict (takeLast prediction_window buf) with
      | Except.error _ => ({ st with data_buffer := buf }, none)
      | Except.ok results =>
        match results.getLast? with
        | none => ({ st with data_buffer := buf }, none)
        | some r =>
          if r.anomaly = -1 then
            ({ st with data_buffer := buf, alerts := st.alerts ++ [mkAlert x r] },
              some (mkAlert x r))
          else ({ st with data_buffer := buf }, none)
  else ({ st with data_buffer := buf }, none)

/-- The label/score pair computed for the newest observation on one tick:
the prediction path of `process_data_point`, observed.  `none` when the tick
performs no prediction (cold state, fit tick, or caught exception). -/
def tick_prediction (st : ProcessorState) (x : Obs) : Option PredictResult :=
  let buf := pushBuffer st.data_buffer x
  if min_training_size ≤ buf.length ∧ st.is_trained = false then none
  else if st.is_trained = true ∧ prediction_window ≤ buf.length then
    match st.model with
    | none => none
    | some m =>
      match m.predict (takeLast prediction_window buf) with
      | Except.error _ => none
      | Except.ok results => results.getLast?
  else none

/-- Initial state of `RealTimeProcessor.__init__` (lines 31-36). -/
def initState : ProcessorState :=
  { is_trained := false, model := none, data_buffer := [], alerts := [] }

/-- Feeding a stream of observations, collecting the per-tick returns. -/
def runProcessor (fit : List Obs → FittedDetector) :
    ProcessorState → List Obs → ProcessorState × List (Option Alert)
  | st, [] => (st, [])
  | st, x :: xs =>
    let step := process_data_point fit st x
    let rest := runProcessor fit step.1 xs
    (rest.1, step.2 :: rest.2)

theorem process_data_point_buffer (fit : List Obs → FittedDetector)
    (st : ProcessorState) (x : Obs) :
    (process_data_point fit st x).1.data_buffer = pushBuffer st.data_buffer x := by
  simp only [process_data_point]
  by_cases h1 : min_training_size ≤ (pushBuffer st.data_buffer x).length ∧
      st.is_trained = false
  · rw [if_pos h1]
  · rw [if_neg h1]
    by_cases h2 : st.is_trained = true ∧
        prediction_window ≤ (pushBuffer st.data_buffer x).length
    · rw [if_pos h2]
      cases hm : st.model with
      | none => rfl
      | some m =>
        cases hp : m.predict (takeLast prediction_window (pushBuffer st.data_buffer x)) with
        | error e => simp only [hp]
        | ok results =>
          simp only [hp]
          cases hl : results.getLast? with
          | none => rfl
          | some r =>
            simp only [hl]
            by_cases hr : r.anomaly = -1
            · rw [if_pos hr]
            · rw [if_neg hr]
    · rw [if_neg h2]

/-- C9: the streaming buffer is a bounded FIFO.  After any call to
`process_data_point` the buffer is exactly `pushBuffer` of the old buffer;
`pushBuffer` keeps the buffer within capacity 1000, retains observations as a
suffix of the arrival order, appends without eviction while below capacity,
and evicts exactly the oldest entry when full. -/
theorem buffer_bounded_fifo (fit : List Obs → FittedDetector)
    (st : ProcessorState) (x : Obs)
    (hlen : st.data_buffer.length ≤ max_buffer_size) :
    (process_data_point fit st x).1.data_buffer = pushBuffer st.data_buffer x ∧
    (pushBuffer st.data_buffer x).length ≤ max_buffer_size ∧
    (pushBuffer st.data_buffer x).IsSuffix (st.data_buffer ++ [x]) ∧
    (st.data_buffer.length < max_buffer_size →
      pushBuffer st.data_buffer x = st.data_buffer ++ [x]) ∧
    (st.data_buffer.length = max_buffer_size →
      pushBuffer st.data_buffer x = st.data_buffer.tail ++ [x]) := by
  have hmax : max_buffer_size = 1000 := rfl
  have hpush : pushBuffer st.data_buffer x =
      if max_buffer_size < st.data_buffer.length + 1 then (st.data_buffer ++ [x]).drop 1
      else st.data_buffer ++ [x] := by
    simp only [pushBuffer, List.length_append, List.length_cons, List.length_nil]
  refine ⟨process_data_point_buffer fit st x, ?_, ?_, ?_, ?_⟩
  · rw [hpush]
    by_cases h : max_buffer_size < st.data_buffer.length + 1
    · rw [if_pos h]
      simp only [List.length_drop, List.length_append, List.length_cons, List.length_nil]
      omega
    · rw [if_neg h]
      simp only [List.length_append, List.length_cons, List.length_nil]
      omega
  · rw [hpush]
    by_cases h : max_buffer_size < st.data_buffer.length + 1
    · rw [if_pos h]
      exact List.drop_suffix 1 _
    · rw [if_neg h]
  · intro h
    rw [hpush, if_neg (by omega)]
  · intro h
    rw [hpush, if_pos (by omega)]
    rw [List.drop_append_of_le_length (by omega), List.drop_one]

/-- A concrete observation for witnesses. -/
def obs0 : Obs :=
  { timestamp := 0, instance_name := "web-server-1", cpu_usage := 1/2,
    network_traffic := 1/4, login_attempts := 3, memory_usage := 1/2,
    disk_io := 1/5 }

/-- C9 witness: processing an observation from the empty buffer leaves the
buffer equal to `pushBuffer [] obs0`, which (being below capacity) is the
one-element append. -/
theorem buffer_bounded_fifo_witness :
    (process_data_point (fun _ => ⟨fun _ => Except.ok []⟩)
        { is_trained := false, model := none,
          data_buffer := [], alerts := [] } obs0).1.data_buffer =
      pushBuffer [] obs0 ∧
    pushBuffer [] obs0 = [obs0] := by
  have h := buffer_bounded_fifo (fun _ => ⟨fun _ => Except.ok []⟩)
    { is_trained := false, model := none, data_buffer := [], alerts := [] }
    obs0 (by simp [max_buffer_size])
  refine ⟨h.1, ?_⟩
  have h4 := h.2.2.2.1 (by simp [max_buffer_size])
  simpa using h4

/-- C7: an exception raised during the Warm-state prediction path (the
`try/except` of lines 128-150) is caught: `process_data_point` returns
`None`, the trained flag and the fitted model are untouched, no alert is
recorded, and the buffer update has still happened, so processing resumes on
the next observation from an intact Warm state. -/
theorem warm_tick_failure_skipped (fit : List Obs → FittedDetector)
    (st : ProcessorState) (x : Obs) (m : FittedDetector) (e : String)
    (ht : st.is_trained = true) (hm : st.model = some m)
    (he : m.predict (takeLast prediction_window (pushBuffer st.data_buffer x)) =
      Except.error e) :
    (process_data_point fit st x).2 = none ∧
    (process_data_point fit st x).1.is_trained = true ∧
    (process_data_point fit st x).1.model = some m ∧
    (process_data_point fit st x).1.alerts = st.alerts ∧
    (process_data_point fit st x).1.data_buffer = pushBuffer st.data_buffer x := by
  have h1 : ¬ (min_training_size ≤ (pushBuffer st.data_buffer x).length ∧
      st.is_trained = false) := by
    rintro ⟨-, hf⟩
    rw [ht] at hf
    cases hf
  simp only [process_data_point]
  rw [if_neg h1]
  by_cases h2 : st.is_trained = true ∧
      prediction_window ≤ (pushBuffer st.data_buffer x).length
  · rw [if_pos h2, hm]
    simp [he, ht]
  · rw [if_neg h2]
    exact ⟨rfl, ht, hm, rfl, rfl⟩

/-- A model for witnesses whose prediction always raises. -/
def failingModel : FittedDetector := ⟨fun _ => Except.error "boom"⟩

/-- C7 witness: a Warm state whose model raises on the tick — the tick
returns `None` and the state stays Warm with the same model. -/
theorem warm_tick_failure_skipped_witness :
    (process_data_point (fun _ => failingModel)
        { is_trained := true, model := some failingModel,
          data_buffer := List.replicate 9 obs0, alerts := [] } obs0).2 = none ∧
    (process_data_point (fun _ => failingModel)
        { is_trained := true, model := some failingModel,
          data_buffer := List.replicate 9 obs0, alerts := [] } obs0).1.is_trained = true :=
  have h := warm_tick_failure_skipped (fun _ => failingModel)
    { is_trained := true, model := some failingModel,
      data_buffer := List.replicate 9 obs0, alerts := [] } obs0 failingModel "boom"
    rfl rfl rfl
  ⟨h.1, h.2.1⟩

theorem getLast?_drop_of_lt {α : Type} (l : List α) (k : ℕ) (hk : k < l.length) :
    (l.drop k).getLast? = l.getLast? := by
  conv_rhs => rw [← List.take_append_drop k l]
  rw [List.getLast?_append_of_ne_nil]
  intro hnil
  have := congrArg List.length hnil
  simp at this
  omega

theorem pushBuffer_getLast? (buf : List Obs) (x : Obs) :
    (pushBuffer buf x).getLast? = some x := by
  have hmax : max_buffer_size = 1000 := rfl
  unfold pushBuffer
  simp only
  split
  · rename_i h
    rw [getLast?_drop_of_lt _ 1 (by omega)]
    exact List.getLast?_concat _
  · exact List.getLast?_concat _

/-- C8: on a Warm tick with a successful prediction, the window re-scored is
exactly the `prediction_window = 10` most recent buffer entries (given the
buffer holds at least 10), whose newest entry is the arriving observation;
the tick's return value and the recorded alerts depend only on the prediction
row of that newest entry — `Some` alert built from the newest observation
when its label is `-1`, `None` otherwise — so the other `K-1` re-scored
results are never emitted; and the trained state persists. -/
theorem warm_tick_emission (fit : List Obs → FittedDetector)
    (st : ProcessorState) (x : Obs) (m : FittedDetector)
    (results : List PredictResult) (r : PredictResult)
    (ht : st.is_trained = true) (hm : st.model = some m)
    (hp : m.predict (takeLast prediction_window (pushBuffer st.data_buffer x)) =
      Except.ok results)
    (hlen : prediction_window ≤ (pushBuffer st.data_buffer x).length)
    (hlast : results.getLast? = some r) :
    (takeLast prediction_window (pushBuffer st.data_buffer x)).length =
      prediction_window ∧
    (takeLast prediction_window (pushBuffer st.data_buffer x)).getLast? = some x ∧
    (process_data_point fit st x).2 =
      (if r.anomaly = -1 then some (mkAlert x r) else none) ∧
    (process_data_point fit st x).1.alerts =
      st.alerts ++ (if r.anomaly = -1 then [mkAlert x r] else []) ∧
    (process_data_point fit st x).1.is_trained = true ∧
    (process_data_point fit st x).1.model = some m := by
  have h1 : ¬ (min_training_size ≤ (pushBuffer st.data_buffer x).length ∧
      st.is_trained = false) := by
    rintro ⟨-, hf⟩
    rw [ht] at hf
    cases hf
  have hwlen : (takeLast prediction_window (pushBuffer st.data_buffer x)).length =
      prediction_window := by
    simp only [takeLast, List.length_drop]
    omega
  have hwlast : (takeLast prediction_window (pushBuffer st.data_buffer x)).getLast? =
      some x := by
    rw [takeLast, getLast?_drop_of_lt _ _ (by
      have hp10 : 0 < prediction_window := by norm_num [prediction_window]
      omega)]
    exact pushBuffer_getLast? _ _
  refine ⟨hwlen, hwlast, ?_⟩
  simp only [process_data_point]
  rw [if_neg h1, if_pos ⟨ht, hlen⟩, hm]
  simp only [hp, hlast]
  by_cases hr : r.anomaly = -1
  · rw [if_pos hr, if_pos hr, if_pos hr]
    exact ⟨rfl, rfl, ht, rfl⟩
  · rw [if_neg hr, if_neg hr, if_neg hr]
    exact ⟨rfl, by simp, ht, rfl⟩

/-- A model for witnesses labelling every window row anomalous. -/
def flaggingModel : FittedDetector :=
  ⟨fun w => Except.ok (w.map (fun _ => ⟨-1, -1/2⟩))⟩

/-- C8 witness: a Warm 10-element buffer whose model flags the newest row —
the tick emits exactly the alert for the arriving observation. -/
theorem warm_tick_emission_witness :
    (process_data_point (fun _ => flaggingModel)
        { is_trained := true, model := some flaggingModel,
          data_buffer := List.replicate 9 obs0, alerts := [] } obs0).2 =
      some (mkAlert obs0 ⟨-1, -1/2⟩) := by
  have h := warm_tick_emission (fun _ => flaggingModel)
    { is_trained := true, model := some flaggingModel,
      data_buffer := List.replicate 9 obs0, alerts := [] } obs0 flaggingModel
    ((takeLast prediction_window
        (pushBuffer (List.replicate 9 obs0) obs0)).map (fun _ => ⟨-1, -1/2⟩))
    ⟨-1, -1/2⟩ rfl rfl rfl
    (by norm_num [pushBuffer, max_buffer_size, prediction_window])
    (by norm_num [pushBuffer, max_buffer_size, takeLast, prediction_window,
      List.replicate, List.getLast?])
  rw [h.2.2.1]
  rfl

/-- The buffer contents after the stream `seen` has been processed: the most
recent `max_buffer_size` observations. -/
def bufferModel (seen : List Obs) : List Obs :=
  seen.drop (seen.length - max_buffer_size)

/-- Reachability invariant of `RealTimeProcessor` after processing `seen`:
the buffer holds the most recent 1000 observations, the trained flag is set
exactly once 50 observations have arrived, and from then on the model is the
one fitted on the first 50 observations (the full buffer at the moment of the
transition), never re-fitted. -/
def ProcessorInv (fit : List Obs → FittedDetector) (seen : List Obs)
    (st : ProcessorState) : Prop :=
  st.data_buffer = bufferModel seen ∧
  st.is_trained = decide (min_training_size ≤ seen.length) ∧
  st.model = if min_training_size ≤ seen.length
    then some (fit (seen.take min_training_size)) else none

theorem pushBuffer_bufferModel (seen : List Obs) (x : Obs) :
    pushBuffer (bufferModel seen) x = bufferModel (seen ++ [x]) := by
  have hmax : max_buffer_size = 1000 := rfl
  have hjoin : bufferModel seen ++ [x] =
      (seen ++ [x]).drop (seen.length - max_buffer_size) := by
    rw [bufferModel, List.drop_append_of_le_length (by omega)]
  have hblen : (bufferModel seen ++ [x]).length =
      seen.length - (seen.length - max_buffer_size) + 1 := by
    simp [bufferModel]
  simp only [pushBuffer]
  by_cases h : seen.length < max_buffer_size
  · rw [if_neg (by rw [hblen]; omega)]
    rw [hjoin]
    have h1 : seen.length - max_buffer_size = 0 := by omega
    have h2 : (seen ++ [x]).length - max_buffer_size = 0 := by
      simp only [List.length_append, List.length_cons, List.length_nil]
      omega
    rw [bufferModel, h1, h2]
  · rw [if_pos (by rw [hblen]; omega)]
    rw [hjoin, List.drop_drop]
    have h1 : seen.length - max_buffer_size + 1 =
        (seen ++ [x]).length - max_buffer_size := by
      simp only [List.length_append, List.length_cons, List.length_nil]
      omega
    rw [bufferModel, h1]

theorem bufferModel_length (seen : List Obs) :
    (bufferModel seen).length = seen.length - (seen.length - max_buffer_size) := by
  simp [bufferModel]

theorem processorInv_init (fit : List Obs → FittedDetector) :
    ProcessorInv fit [] initState := by
  refine ⟨rfl, ?_, ?_⟩ <;> simp [initState, min_training_size]

theorem process_data_point_untaken (fit : List Obs → FittedDetector)
    (st : ProcessorState) (x : Obs)
    (h1 : ¬ (min_training_size ≤ (pushBuffer st.data_buffer x).length ∧
      st.is_trained = false)) :
    (process_data_point fit st x).1.is_trained = st.is_trained ∧
    (process_data_point fit st x).1.model = st.model := by
  simp only [process_data_point]
  rw [if_neg h1]
  by_cases h2 : st.is_trained = true ∧
      prediction_window ≤ (pushBuffer st.data_buffer x).length
  · rw [if_pos h2]
    cases hm : st.model with
    | none => exact ⟨rfl, rfl⟩
    | some m =>
      cases hp : m.predict (takeLast prediction_window (pushBuffer st.data_buffer x)) with
      | error e => simp [hp]
      | ok results =>
        simp only [hp]
        cases hl : results.getLast? with
        | none => simp [hl]
        | some r =>
          simp only [hl]
          by_cases hr : r.anomaly = -1
          · simp [hr]
          · simp [hr]
  · rw [if_neg h2]
    exact ⟨rfl, rfl⟩

theorem processorInv_step (fit : List Obs → FittedDetector) (seen : List Obs)
    (st : ProcessorState) (x : Obs) (h : ProcessorInv fit seen st) :
    ProcessorInv fit (seen ++ [x]) (process_data_point fit st x).1 := by
  obtain ⟨hbuf, htr, hmod⟩ := h
  have hmax : max_buffer_size = 1000 := rfl
  have hmin : min_training_size = 50 := rfl
  have hpb : pushBuffer st.data_buffer x = bufferModel (seen ++ [x]) := by
    rw [hbuf]
    exact pushBuffer_bufferModel seen x
  have hlen' : (seen ++ [x]).length = seen.length + 1 := by simp
  have hblen : (pushBuffer st.data_buffer x).length =
      (seen.length + 1) - ((seen.length + 1) - max_buffer_size) := by
    rw [hpb, bufferModel_length, hlen']
  by_cases h1 : min_training_size ≤ (pushBuffer st.data_buffer x).length ∧
      st.is_trained = false
  · have hstate : (process_data_point fit st x).1 =
        { st with
          data_buffer := pushBuffer st.data_buffer x
          model := some (fit (pushBuffer st.data_buffer x))
          is_trained := true } := by
      simp only [process_data_point]
      rw [if_pos h1]
    obtain ⟨h1a, h1b⟩ := h1
    have hcold : ¬ (min_training_size ≤ seen.length) := by
      intro hc
      rw [htr, decide_eq_true hc] at h1b
      cases h1b
    have h49 : seen.length + 1 = 50 := by
      rw [hblen] at h1a
      omega
    have hfull : bufferModel (seen ++ [x]) = seen ++ [x] := by
      rw [bufferModel, hlen']
      rw [Nat.sub_eq_zero_of_le (by omega), List.drop_zero]
    rw [hstate]
    refine ⟨hpb, ?_, ?_⟩
    · rw [hlen', h49, decide_eq_true (by rw [hmin])]
    · rw [if_pos (by rw [hlen']; omega)]
      rw [hpb, hfull]
      rw [List.take_of_length_le (by rw [hlen']; omega)]
  · have huk := process_data_point_untaken fit st x h1
    have hb := process_data_point_buffer fit st x
    have hnot1 : ¬ (min_training_size ≤ seen.length) →
        ¬ (min_training_size ≤ seen.length + 1) := by
      intro hc hc1
      apply h1
      constructor
      · rw [hblen]
        omega
      · rw [htr, decide_eq_false hc]
    refine ⟨hb.trans hpb, huk.1.trans ?_, huk.2.trans ?_⟩
    · by_cases hc : min_training_size ≤ seen.length
      · rw [htr, decide_eq_true hc, decide_eq_true (by rw [hlen']; omega)]
      · rw [htr, decide_eq_false hc, decide_eq_false (by rw [hlen']; exact hnot1 hc)]
    · by_cases hc : min_training_size ≤ seen.length
      · rw [hmod, if_pos hc, if_pos (by rw [hlen']; omega)]
        rw [List.take_append_of_le_length (by omega)]
      · rw [hmod, if_neg hc, if_neg (by rw [hlen']; exact hnot1 hc)]

theorem processorInv_run (fit : List Obs → FittedDetector) :
    ∀ (l seen : List Obs) (st : ProcessorState), ProcessorInv fit seen st →
      ProcessorInv fit (seen ++ l) (runProcessor fit st l).1 := by
  intro l
  induction l with
  | nil =>
    intro seen st h
    simpa [runProcessor] using h
  | cons x xs ih =>
    intro seen st h
    rw [runProcessor]
    simp only
    have hstep := processorInv_step fit seen st x h
    have := ih (seen ++ [x]) _ hstep
    rwa [List.append_assoc, List.singleton_append] at this

theorem process_output_cold (fit : List Obs → FittedDetector)
    (st : ProcessorState) (x : Obs) (htr : st.is_trained = false)
    (hlen : (pushBuffer st.data_buffer x).length < min_training_size) :
    (process_data_point fit st x).2 = none ∧ tick_prediction st x = none := by
  have h1 : ¬ (min_training_size ≤ (pushBuffer st.data_buffer x).length ∧
      st.is_trained = false) := by
    rintro ⟨hc, -⟩
    omega
  have h2 : ¬ (st.is_trained = true ∧
      prediction_window ≤ (pushBuffer st.data_buffer x).length) := by
    rintro ⟨hc, -⟩
    rw [htr] at hc
    cases hc
  constructor
  · simp only [process_data_point]
    rw [if_neg h1, if_neg h2]
  · simp only [tick_prediction]
    rw [if_neg h1, if_neg h2]

theorem process_output_fit_tick (fit : List Obs → FittedDetector)
    (st : ProcessorState) (x : Obs) (htr : st.is_trained = false)
    (hlen : min_training_size ≤ (pushBuffer st.data_buffer x).length) :
    (process_data_point fit st x).2 = none ∧ tick_prediction st x = none := by
  constructor
  · simp only [process_data_point]
    rw [if_pos ⟨hlen, htr⟩]
  · simp only [tick_prediction]
    rw [if_pos ⟨hlen, htr⟩]

theorem run_cold_outputs (fit : List Obs → FittedDetector) :
    ∀ (l seen : List Obs) (st : ProcessorState), ProcessorInv fit seen st →
      seen.length + l.length < min_training_size →
      ∀ o ∈ (runProcessor fit st l).2, o = none := by
  intro l
  induction l with
  | nil =>
    intro seen st h hlen o ho
    simp [runProcessor] at ho
  | cons x xs ih =>
    intro seen st h hlen o ho
    obtain ⟨hbuf, htr, hmod⟩ := h
    have hmax : max_buffer_size = 1000 := rfl
    have hmin : min_training_size = 50 := rfl
    have hpb : pushBuffer st.data_buffer x = bufferModel (seen ++ [x]) := by
      rw [hbuf]
      exact pushBuffer_bufferModel seen x
    have hsl : seen.length + xs.length + 1 < 50 := by
      rw [hmin] at hlen
      simp only [List.length_cons] at hlen
      omega
    have hblen : (pushBuffer st.data_buffer x).length < min_training_size := by
      rw [hpb, bufferModel_length, hmin, hmax]
      simp only [List.length_append, List.length_cons, List.length_nil]
      omega
    have htr' : st.is_trained = false := by
      rw [htr, decide_eq_false (by rw [hmin]; omega)]
    rw [runProcessor] at ho
    simp only [List.mem_cons] at ho
    rcases ho with ho | ho
    · rw [ho]
      exact (process_output_cold fit st x htr' hblen).1
    · exact ih (seen ++ [x]) _
        (processorInv_step fit seen st x ⟨hbuf, htr, hmod⟩)
        (by
          simp only [List.length_append, List.length_cons, List.length_nil]
          rw [hmin]
          omega)
        o ho

theorem tick_prediction_warm (st : ProcessorState) (x : Obs) (m : FittedDetector)
    (ht : st.is_trained = true) (hm : st.model = some m)
    (hlen : prediction_window ≤ (pushBuffer st.data_buffer x).length)
    (hok : ∀ w, ∃ rs, m.predict w = Except.ok rs ∧ rs.length = w.length) :
    ∃ r, tick_prediction st x = some r := by
  have h1 : ¬ (min_training_size ≤ (pushBuffer st.data_buffer x).length ∧
      st.is_trained = false) := by
    rintro ⟨-, hf⟩
    rw [ht] at hf
    cases hf
  simp only [tick_prediction]
  rw [if_neg h1, if_pos ⟨ht, hlen⟩, hm]
  obtain ⟨rs, hrs, hrslen⟩ := hok (takeLast prediction_window (pushBuffer st.data_buffer x))
  simp only [hrs]
  have hpw : prediction_window = 10 := rfl
  have hne : rs ≠ [] := by
    intro hnil
    rw [hnil] at hrslen
    simp only [List.length_nil, takeLast, List.length_drop] at hrslen
    omega
  rcases Option.isSome_iff_exists.mp (List.getLast?_isSome.mpr hne) with ⟨r, hr⟩
  exact ⟨r, hr⟩

/-- C1: the Cold→Warm transition of the online detector happens exactly once.
Assuming the abstract fitted model is total (each prediction succeeds with
one row per window row): (i) while fewer than `min_training_size = 50`
observations have arrived, the detector is untrained and every tick returns
`None` (no prediction is made); (ii) from the 50th observation onward the
detector is trained and its model is, permanently, the one fitted on the
first 50 observations — the entire buffer contents at the transition tick;
(iii) every observation after the transition gets a label/score pair from
the prediction path. -/
theorem cold_warm_lifecycle (fit : List Obs → FittedDetector)
    (hfit : ∀ b w, ∃ rs, (fit b).predict w = Except.ok rs ∧ rs.length = w.length)
    (os : List Obs) :
    (∀ k, k < min_training_size →
      (runProcessor fit initState (os.take k)).1.is_trained = false ∧
      ∀ o ∈ (runProcessor fit initState (os.take k)).2, o = none) ∧
    (∀ k, min_training_size ≤ k → k ≤ os.length →
      (runProcessor fit initState (os.take k)).1.is_trained = true ∧
      (runProcessor fit initState (os.take k)).1.model =
        some (fit (os.take min_training_size))) ∧
    (∀ k x, min_training_size ≤ k → os[k]? = some x →
      ∃ r, tick_prediction (runProcessor fit initState (os.take k)).1 x = some r) := by
  have hmin : min_training_size = 50 := rfl
  have hmax : max_buffer_size = 1000 := rfl
  have hinv : ∀ k, ProcessorInv fit (os.take k) (runProcessor fit initState (os.take k)).1 := by
    intro k
    have := processorInv_run fit (os.take k) [] initState (processorInv_init fit)
    simpa using this
  refine ⟨?_, ?_, ?_⟩
  · intro k hk
    obtain ⟨hbuf, htr, hmod⟩ := hinv k
    have hklen : (os.take k).length ≤ k := by
      simp [List.length_take]
    constructor
    · rw [htr, decide_eq_false (by omega)]
    · exact run_cold_outputs fit (os.take k) [] initState (processorInv_init fit)
        (by simpa using by omega)
  · intro k hk hkos
    obtain ⟨hbuf, htr, hmod⟩ := hinv k
    have hklen : (os.take k).length = k := by
      simp [List.length_take]
      omega
    constructor
    · rw [htr, decide_eq_true (by omega)]
    · rw [hmod, if_pos (by omega)]
      rw [List.take_take]
      rw [Nat.min_eq_left (by omega)]
  · intro k x hk hkx
    have hkos : k < os.length := by
      by_contra hc
      rw [List.getElem?_eq_none (by omega)] at hkx
      cases hkx
    obtain ⟨hbuf, htr, hmod⟩ := hinv k
    have hklen : (os.take k).length = k := by
      simp [List.length_take]
      omega
    have htrue : (runProcessor fit initState (os.take k)).1.is_trained = true := by
      rw [htr, decide_eq_true (by omega)]
    have hmodel : (runProcessor fit initState (os.take k)).1.model =
        some (fit ((os.take k).take min_training_size)) := by
      rw [hmod, if_pos (by omega)]
    apply tick_prediction_warm _ x (fit ((os.take k).take min_training_size))
      htrue hmodel
    · rw [hbuf, pushBuffer_bufferModel, bufferModel_length]
      simp only [List.length_append, List.length_cons, List.length_nil, hklen]
      have hpw : prediction_window = 10 := rfl
      omega
    · exact hfit _

/-- A total fit for witnesses: every window row labelled normal. -/
def okFit : List Obs → FittedDetector :=
  fun _ => ⟨fun w => Except.ok (w.map (fun _ => ⟨1, 0⟩))⟩

/-- C1 witness: on a 51-observation stream, after 49 observations the
detector is untrained, after 50 it is trained, and the 51st observation gets
a prediction. -/
theorem cold_warm_lifecycle_witness :
    (runProcessor okFit initState ((List.replicate 51 obs0).take 49)).1.is_trained
      = false ∧
    (runProcessor okFit initState ((List.replicate 51 obs0).take 50)).1.is_trained
      = true ∧
    ∃ r, tick_prediction
      (runProcessor okFit initState ((List.replicate 51 obs0).take 50)).1 obs0 =
        some r := by
  have hfit : ∀ b w, ∃ rs, ((okFit b).predict w) = Except.ok rs ∧
      rs.length = w.length := by
    intro b w
    exact ⟨w.map (fun _ => ⟨1, 0⟩), rfl, by simp⟩
  have h := cold_warm_lifecycle okFit hfit (List.replicate 51 obs0)
  refine ⟨(h.1 49 (by norm_num [min_training_size])).1, ?_, ?_⟩
  · exact (h.2.1 50 (by norm_num [min_training_size]) (by simp)).1
  · exact h.2.2 50 obs0 (by norm_num [min_training_size])
      (by rw [List.getElem?_replicate]; norm_num)

/-! ## Batch detect_anomalies

Embedding of `detect_anomalies` (`src/anomaly_detection/model.py`, lines
3-9).  The function selects the three columns `cpu_usage`,
`network_traffic`, `login_attempts`, fits a fresh `IsolationForest` with
`contamination=0.1, random_state=42` via `fit_predict`, writes the resulting
labels into the caller's DataFrame as a new `anomaly` column (an in-place
mutation of the argument), and returns the rows labelled `-1`.  The Python
in-place mutation is modelled by state passing: the first component of the
result is the caller's frame after the call.  The forest's `fit_predict` is
an abstract function of the contamination, the seed and the selected
feature rows. -/

/-- A row of the batch frame, carrying the three selected metric columns. -/
structure MetricsRow where
  cpu_usage : ℚ
  network_traffic : ℚ
  login_attempts : ℚ
deriving DecidableEq, Repr

/-- The batch DataFrame: its rows and its `anomaly` column if present. -/
structure MetricsFrame where
  rows : List MetricsRow
  anomaly : Option (List ℤ)
deriving DecidableEq, Repr

/-- `data[['cpu_usage', 'network_traffic', 'login_attempts']]` (line 6). -/
def selectedFeatures (data : MetricsFrame) : List (List ℚ) :=
  data.rows.map (fun r => [r.cpu_usage, r.network_traffic, r.login_attempts])

/-- `detect_anomalies(data)`: fit-predict on the three selected columns with
contamination 0.1 and seed 42, write the label column into the caller's
frame, return the `-1`-labelled rows. -/
def detect_anomalies (fit_predict : ℚ → ℕ → List (List ℚ) → List ℤ)
    (data : MetricsFrame) : MetricsFrame × MetricsFrame :=
  let labels := fit_predict (1/10) 42 (selectedFeatures data)
  let mutated : MetricsFrame := { data with anomaly := some labels }
  let kept := (mutated.rows.zip labels).filterMap
    (fun p => if p.2 = -1 then some p.1 else none)
  let keptLabels := labels.filter (fun a => a = -1)
  (mutated, { rows := kept, anomaly := some keptLabels })

theorem filterMap_neg_labels {α : Type} (l : List (α × ℤ)) :
    l.filterMap (fun p => if p.2 = -1 then some p.1 else none) =
      (l.filter (fun p => decide (p.2 = -1))).map Prod.fst := by
  induction l with
  | nil => rfl
  | cons a t ih =>
    by_cases h : a.2 = -1
    · simp [List.filterMap_cons, List.filter_cons, h, ih]
    · simp [List.filterMap_cons, List.filter_cons, h, ih]

/-- C10: `detect_anomalies` writes the `anomaly` label column — computed by a
fresh forest at contamination 0.1 and seed 42 over exactly the three columns
cpu_usage, network_traffic, login_attempts — into the caller's frame (so a
frame without that column does not come back unchanged), keeps the caller's
rows intact, and returns exactly the rows whose label is `-1`. -/
theorem detect_anomalies_behavior (fit_predict : ℚ → ℕ → List (List ℚ) → List ℤ)
    (data : MetricsFrame) :
    (detect_anomalies fit_predict data).1.rows = data.rows ∧
    (detect_anomalies fit_predict data).1.anomaly =
      some (fit_predict (1/10) 42
        (data.rows.map (fun r => [r.cpu_usage, r.network_traffic, r.login_attempts]))) ∧
    (data.anomaly = none → (detect_anomalies fit_predict data).1 ≠ data) ∧
    (detect_anomalies fit_predict data).2.rows =
      ((data.rows.zip (fit_predict (1/10) 42 (selectedFeatures data))).filter
        (fun p => decide (p.2 = -1))).map Prod.fst := by
  refine ⟨rfl, rfl, ?_, ?_⟩
  · intro hnone heq
    have : (detect_anomalies fit_predict data).1.anomaly = data.anomaly :=
      congrArg MetricsFrame.anomaly heq
    rw [hnone] at this
    cases this
  · exact filterMap_neg_labels _

/-- C10 witness: on a one-row frame with no `anomaly` column and a forest
labelling everything `-1`, the caller's frame comes back changed and the
returned anomalies are that row. -/
theorem detect_anomalies_behavior_witness :
    (detect_anomalies (fun _ _ rows => rows.map (fun _ => (-1 : ℤ)))
      { rows := [⟨1, 0, 0⟩], anomaly := none }).1 ≠
        { rows := [⟨1, 0, 0⟩], anomaly := none } ∧
    (detect_anomalies (fun _ _ rows => rows.map (fun _ => (-1 : ℤ)))
      { rows := [⟨1, 0, 0⟩], anomaly := none }).2.rows = [⟨1, 0, 0⟩] := by
  have h := detect_anomalies_behavior (fun _ _ rows => rows.map (fun _ => (-1 : ℤ)))
    { rows := [⟨1, 0, 0⟩], anomaly := none }
  refine ⟨h.2.2.1 rfl, ?_⟩
  rw [h.2.2.2]
  rfl

end CloudThreat
